import Mathlib

/-!
Verification of the schema-adaptive forensic extraction engine of
src/Samsung/main.py (Androsiq). The Python source is shallowly embedded:
SQLite query outcomes are abstracted as a function from candidate queries to
either rows or a store error, pure value sanitization and timeline logic are
translated function by function, and stateful GUI plumbing is out of scope.
-/

namespace Androsiq

/-- A raw cell value as produced by the sqlite3 driver: `None`, `int`,
`float`, `str` or `bytes`.  Python strings may contain lone surrogate code
points (from surrogateescape decoding), so raw strings are modelled as lists
of code points; byte strings as lists of byte values. -/
inductive RawValue where
  | rNull
  | rInt (n : ℤ)
  | rFloat (q : ℚ)
  | rStr (cps : List ℕ)
  | rBytes (bs : List ℕ)
deriving DecidableEq, Repr

/-- A sanitized cell value: `None`, `int`, `float` or text (markers are
text). This is what `ForensicDatabase.query` stores in its result dicts. -/
inductive Value where
  | vNull
  | vInt (n : ℤ)
  | vFloat (q : ℚ)
  | vStr (s : String)
deriving DecidableEq, Repr

/-- A raw row: ordered mapping of column name to raw value. -/
abbrev Row := List (String × RawValue)

/-- A sanitized row, as appended to `results` by `ForensicDatabase.query`. -/
abbrev SRow := List (String × Value)

/-- Is a code point a UTF-16 surrogate (not encodable as UTF-8)? -/
def isSurrogate (c : ℕ) : Bool := 0xD800 ≤ c && c < 0xE000

/-- Is a byte a UTF-8 continuation byte (10xxxxxx)? -/
def contByte (b : ℕ) : Prop := 0x80 ≤ b ∧ b ≤ 0xBF

instance (b : ℕ) : Decidable (contByte b) := by unfold contByte; infer_instance

/-- Models Python's strict `bytes.decode('utf-8')`: returns the decoded code
points, or `none` on any invalid sequence (stray continuation byte, overlong
form, surrogate, out-of-range lead, or truncated sequence). -/
def utf8Decode : List ℕ → Option (List ℕ)
  | [] => some []
  | b :: rest =>
    if b ≤ 0x7F then
      (utf8Decode rest).map (fun cs => b :: cs)
    else if 0xC2 ≤ b ∧ b ≤ 0xDF then
      match rest with
      | b1 :: rest2 =>
        if contByte b1 then
          (utf8Decode rest2).map (fun cs => ((b - 0xC0) * 0x40 + (b1 - 0x80)) :: cs)
        else none
      | [] => none
    else if 0xE0 ≤ b ∧ b ≤ 0xEF then
      match rest with
      | b1 :: b2 :: rest3 =>
        if contByte b1 ∧ contByte b2 ∧ (b = 0xE0 → 0xA0 ≤ b1) ∧ (b = 0xED → b1 ≤ 0x9F) then
          (utf8Decode rest3).map
            (fun cs => ((b - 0xE0) * 0x1000 + (b1 - 0x80) * 0x40 + (b2 - 0x80)) :: cs)
        else none
      | _ => none
    else if 0xF0 ≤ b ∧ b ≤ 0xF4 then
      match rest with
      | b1 :: b2 :: b3 :: rest4 =>
        if contByte b1 ∧ contByte b2 ∧ contByte b3 ∧ (b = 0xF0 → 0x90 ≤ b1) ∧ (b = 0xF4 → b1 ≤ 0x8F) then
          (utf8Decode rest4).map
            (fun cs => ((b - 0xF0) * 0x40000 + (b1 - 0x80) * 0x1000 + (b2 - 0x80) * 0x40 + (b3 - 0x80)) :: cs)
        else none
      | _ => none
    else none
  termination_by structural l => l

/-- Turn decoded code points into a Lean string (valid points only reach
this in `sanitizeValue`, since `utf8Decode` rejects surrogates). -/
def strOfCodepoints (cps : List ℕ) : String := String.mk (cps.map Char.ofNat)

/-- One lowercase hexadecimal digit, as produced by Python's `bytes.hex()`. -/
def hexDigit (n : ℕ) : Char := if n < 10 then Char.ofNat (48 + n) else Char.ofNat (87 + n)

/-- The character sequence of Python's `value.hex()`: two lowercase hex
digits per byte, in order. -/
def hexChars : List ℕ → List Char
  | [] => []
  | b :: bs => hexDigit (b / 16) :: hexDigit (b % 16) :: hexChars bs

/-- Per-cell sanitization performed inline by `ForensicDatabase.query`
(src/Samsung/main.py lines 62-82): bytes are decoded as UTF-8 when possible,
otherwise replaced by a binary-size marker (length over 100) or a truncated
hex marker; strings that cannot be encoded as UTF-8 (lone surrogates) are
replaced by an encoding-error marker; `None`, ints and floats pass through
typed and unchanged. -/
def sanitizeValue : RawValue → Value
  | .rBytes bs =>
    match utf8Decode bs with
    | some cps => .vStr (strOfCodepoints cps)
    | none =>
      if bs.length > 100 then
        .vStr ("<Binary data: " ++ toString bs.length ++ " bytes>")
      else
        .vStr ("<Hex: " ++ String.mk ((hexChars bs).take 50)
          ++ (if (hexChars bs).length > 50 then "..." else "") ++ ">")
  | .rStr cps =>
    if cps.any isSurrogate then .vStr ("<Encoding error in text data>")
    else .vStr (strOfCodepoints cps)
  | .rNull => .vNull
  | .rInt n => .vInt n
  | .rFloat q => .vFloat q

/-- Sanitize every cell of a row, preserving column order. -/
def sanitizeRow (r : Row) : SRow := r.map (fun kv => (kv.1, sanitizeValue kv.2))

/-- The fixed SQL candidate queries issued by the analyzer classes, plus the
two dynamically built table scans (`SELECT * FROM t LIMIT 50` in the browsing
last resort, `SELECT * FROM t LIMIT 100` in the generic handler). -/
inductive Candidate where
  | contactsMain
  | contactsAltMimetype
  | contactsSimple
  | contactsDataTable
  | callsQuery
  | messagesQuery
  | browserChrome
  | browserBookmarksAlt
  | browserUrlsDump
  | browserHistoryDump
  | downloadsQuery
  | metaQuery
  | calendarQuery
  | accountsMain
  | accountsDump
  | accountsAuthJoin
  | selectAllLimit50 (table : String)
  | selectAllLimit100 (table : String)
deriving DecidableEq, Repr

/-- The row cap in each candidate's `LIMIT` clause, `none` when the SQL text
has no `LIMIT` clause (contacts main join, calls, downloads, meta, accounts
main — see the SQL literals in src/Samsung/main.py). -/
def Candidate.limit : Candidate → Option ℕ
  | .contactsMain => none
  | .contactsAltMimetype => some 1000
  | .contactsSimple => some 1000
  | .contactsDataTable => some 1000
  | .callsQuery => none
  | .messagesQuery => some 1000
  | .browserChrome => some 1000
  | .browserBookmarksAlt => some 1000
  | .browserUrlsDump => some 100
  | .browserHistoryDump => some 100
  | .downloadsQuery => none
  | .metaQuery => none
  | .calendarQuery => some 500
  | .accountsMain => none
  | .accountsDump => some 100
  | .accountsAuthJoin => some 100
  | .selectAllLimit50 _ => some 50
  | .selectAllLimit100 _ => some 100

/-- What the SQLite store answers to one query: raw rows, or a store error
(absent table or column, malformed statement...). -/
inductive QueryOutcome where
  | ok (rows : List Row)
  | err (msg : String)
deriving DecidableEq

/-- An opened database file, abstracted to its table list (as returned by
`get_tables`) and the outcome the underlying store produces for each query. -/
structure DBHandle where
  tables : List String
  run : Candidate → QueryOutcome

/-- `ForensicDatabase.query` (src/Samsung/main.py lines 50-89): execute the
query; on a store error print and return the empty list (the sqlite error is
caught, never propagated); otherwise sanitize every cell of every row, in
store order. -/
def ForensicDatabase.query (db : DBHandle) (c : Candidate) : List SRow :=
  match db.run c with
  | .ok rows => rows.map sanitizeRow
  | .err _ => []

/-- `get_tables`: the table names of the opened database. -/
def ForensicDatabase.get_tables (db : DBHandle) : List String := db.tables

/-- Adaptive fallback driver shared by the analyzer methods: run each
candidate in order, return the first non-empty result immediately, and
return the empty list once the list is exhausted. Each analyzer method is
literally this loop over its own candidate runners (a runner is either
`ForensicDatabase.query` at a fixed SQL candidate, or — for browsing — the
final table-name scan). -/
def runCandidateList (db : DBHandle) : List (DBHandle → List SRow) → List SRow
  | [] => []
  | f :: fs => if f db = [] then runCandidateList db fs else f db

/-- The ordered candidate runners of `ContactsAnalyzer.get_contacts`: the
main mimetype join, then the three fallback queries. -/
def contactsCandidates : List (DBHandle → List SRow) :=
  [fun db => ForensicDatabase.query db .contactsMain,
   fun db => ForensicDatabase.query db .contactsAltMimetype,
   fun db => ForensicDatabase.query db .contactsSimple,
   fun db => ForensicDatabase.query db .contactsDataTable]

/-- `ContactsAnalyzer.get_contacts` (src/Samsung/main.py lines 94-165). -/
def ContactsAnalyzer.get_contacts (db : DBHandle) : List SRow :=
  runCandidateList db contactsCandidates

/-- `CallLogAnalyzer.get_call_history` (lines 170-182): the single canonical
calls query. -/
def CallLogAnalyzer.get_call_history (db : DBHandle) : List SRow :=
  ForensicDatabase.query db .callsQuery

/-- `MessagesAnalyzer.get_messages` (lines 187-199). -/
def MessagesAnalyzer.get_messages (db : DBHandle) : List SRow :=
  ForensicDatabase.query db .messagesQuery

/-- Python `str.lower` on the ASCII letters (table names and column names in
scope here are ASCII). -/
def lowerChar (c : Char) : Char :=
  if 'A' ≤ c ∧ c ≤ 'Z' then Char.ofNat (c.toNat + 32) else c

/-- Lowercase a string character by character. -/
def lowerStr (s : String) : String := String.mk (s.data.map lowerChar)

/-- Substring containment on character lists (Python's `in` on str). -/
def containsSub (needle : List Char) : List Char → Bool
  | [] => needle.isEmpty
  | c :: rest => needle.isPrefixOf (c :: rest) || containsSub needle rest

/-- The browsing last-resort token test: does the lowercased table name
contain one of `url`, `history`, `visit`, `bookmark`? -/
def tableTokenMatch (t : String) : Bool :=
  ["url", "history", "visit", "bookmark"].any
    (fun kw => containsSub kw.data (lowerStr t).data)

/-- The browsing last-resort acceptance test on a query result: non-empty,
and some column name of the first row contains `url` (lowercased substring
test, `'url' in str(key).lower()`). -/
def acceptUrlResult (results : List SRow) : Bool :=
  match results with
  | [] => false
  | r :: _ => r.any (fun kv => containsSub ("url").data (lowerStr kv.1).data)

/-- The browsing last-resort scan body (lines 243-252): walk the table list
in order; for each name containing a token, run `SELECT * FROM t LIMIT 50`
and return its sanitized rows iff the result is accepted; otherwise keep
scanning; return the empty list when the tables are exhausted. -/
def scanTablesForUrl (db : DBHandle) : List String → List SRow
  | [] => []
  | t :: ts =>
    if tableTokenMatch t then
      if acceptUrlResult (ForensicDatabase.query db (.selectAllLimit50 t)) then
        ForensicDatabase.query db (.selectAllLimit50 t)
      else scanTablesForUrl db ts
    else scanTablesForUrl db ts

/-- The last-resort fallback of `get_browsing_history`, applied to all table
names of the database. -/
def lastResortScan (db : DBHandle) : List SRow :=
  scanTablesForUrl db (ForensicDatabase.get_tables db)

/-- The ordered candidate runners of `BrowserAnalyzer.get_browsing_history`:
the four fixed queries, then the last-resort table scan. -/
def browserCandidates : List (DBHandle → List SRow) :=
  [fun db => ForensicDatabase.query db .browserChrome,
   fun db => ForensicDatabase.query db .browserBookmarksAlt,
   fun db => ForensicDatabase.query db .browserUrlsDump,
   fun db => ForensicDatabase.query db .browserHistoryDump,
   fun db => lastResortScan db]

/-- `BrowserAnalyzer.get_browsing_history` (lines 204-253). -/
def BrowserAnalyzer.get_browsing_history (db : DBHandle) : List SRow :=
  runCandidateList db browserCandidates

/-- `BrowserAnalyzer.get_chrome_downloads` (lines 255-278). -/
def BrowserAnalyzer.get_chrome_downloads (db : DBHandle) : List SRow :=
  ForensicDatabase.query db .downloadsQuery

/-- `CalendarAnalyzer.get_events` (lines 291-299). -/
def CalendarAnalyzer.get_events (db : DBHandle) : List SRow :=
  ForensicDatabase.query db .calendarQuery

/-- The ordered candidate runners of `AccountsAnalyzer.get_accounts`: the
canonical name/type/password query, then the raw dump, then the authtokens
join. -/
def accountsCandidates : List (DBHandle → List SRow) :=
  [fun db => ForensicDatabase.query db .accountsMain,
   fun db => ForensicDatabase.query db .accountsDump,
   fun db => ForensicDatabase.query db .accountsAuthJoin]

/-- `AccountsAnalyzer.get_accounts` (lines 304-339). -/
def AccountsAnalyzer.get_accounts (db : DBHandle) : List SRow :=
  runCandidateList db accountsCandidates

/-- Python truthiness of a sanitized cell value (`if timestamp:`): `None`,
`0`, `0.0` and the empty string are falsy, everything else truthy. -/
def truthy : Value → Bool
  | .vNull => false
  | .vInt n => decide (n ≠ 0)
  | .vFloat q => decide (q ≠ 0)
  | .vStr s => decide (s ≠ "")

/-- Python `str()` of a sanitized value, as used in f-string descriptions
and in the ISO parse (`str(timestamp)`); the float rendering is
approximated by the rational's literal form. -/
def pyStr : Value → String
  | .vStr s => s
  | .vInt n => toString n
  | .vFloat q => toString q
  | .vNull => "None"

/-- `'k' in record` on a sanitized row (first binding wins, as in a dict). -/
def hasKey (r : SRow) (k : String) : Bool := (List.lookup k r).isSome

/-- `record.get(k)`: the value under `k`, or `None` when absent. -/
def getVal (r : SRow) (k : String) : Value := (List.lookup k r).getD .vNull

/-- `record.get(k, d)`: the value under `k`, or the default `d`. -/
def getValD (r : SRow) (k : String) (d : Value) : Value := (List.lookup k r).getD d

/-- One decimal digit value, or `none`. -/
def digitVal (c : Char) : Option ℕ :=
  if '0' ≤ c ∧ c ≤ '9' then some (c.toNat - 48) else none

/-- Two decimal digits. -/
def digits2 (a b : Char) : Option ℕ :=
  match digitVal a, digitVal b with
  | some x, some y => some (10 * x + y)
  | _, _ => none

/-- Four decimal digits. -/
def digits4 (a b c d : Char) : Option ℕ :=
  match digitVal a, digitVal b, digitVal c, digitVal d with
  | some x, some y, some z, some w => some (1000 * x + 100 * y + 10 * z + w)
  | _, _, _, _ => none

/-- Gregorian leap year. -/
def isLeap (y : ℕ) : Bool := y % 4 == 0 && (y % 100 != 0 || y % 400 == 0)

/-- Days in a month of a given year. -/
def daysInMonth (y m : ℕ) : ℕ :=
  if m = 2 then (if isLeap y then 29 else 28)
  else if m = 4 ∨ m = 6 ∨ m = 9 ∨ m = 11 then 30
  else 31

/-- Validity of a calendar date for `datetime` (year 1-9999, valid month
and day). -/
def dateOk (y m d : ℕ) : Prop :=
  1 ≤ y ∧ y ≤ 9999 ∧ 1 ≤ m ∧ m ≤ 12 ∧ 1 ≤ d ∧ d ≤ daysInMonth y m

instance (y m d : ℕ) : Decidable (dateOk y m d) := by unfold dateOk; infer_instance

/-- Days from 1970-01-01 to the given civil date (standard civil-calendar
day-count algorithm). -/
def daysFromCivil (y m d : ℕ) : ℤ :=
  let yy : ℕ := if m ≤ 2 then y - 1 else y
  let era : ℕ := yy / 400
  let yoe : ℕ := yy - era * 400
  let mp : ℕ := if m > 2 then m - 3 else m + 9
  let doy : ℕ := (153 * mp + 2) / 5 + d - 1
  let doe : ℕ := yoe * 365 + yoe / 4 - yoe / 100 + doy
  (era * 146097 + doe : ℤ) - 719468

/-- A naive datetime identified with its seconds since the Unix epoch. -/
def toEpoch (y m d h mi s : ℕ) : ℚ :=
  86400 * (daysFromCivil y m d : ℚ) + 3600 * h + 60 * mi + s

/-- Models Python's `datetime.fromisoformat` on the subset relevant here:
`YYYY-MM-DD`, optionally followed by one separator character and `HH:MM:SS`
(fractional seconds and UTC offsets are not modelled), with Python's
validity checks; the parsed naive datetime is identified with its seconds
since the Unix epoch. -/
def parseIsoChars : List Char → Option ℚ
  | [y1, y2, y3, y4, '-', m1, m2, '-', d1, d2] =>
    match digits4 y1 y2 y3 y4, digits2 m1 m2, digits2 d1 d2 with
    | some y, some m, some d =>
      if dateOk y m d then some (toEpoch y m d 0 0 0) else none
    | _, _, _ => none
  | [y1, y2, y3, y4, '-', m1, m2, '-', d1, d2, _, h1, h2, ':', mi1, mi2, ':', s1, s2] =>
    match digits4 y1 y2 y3 y4, digits2 m1 m2, digits2 d1 d2,
        digits2 h1 h2, digits2 mi1 mi2, digits2 s1 s2 with
    | some y, some m, some d, some h, some mi, some s =>
      if dateOk y m d ∧ h ≤ 23 ∧ mi ≤ 59 ∧ s ≤ 59 then
        some (toEpoch y m d h mi s)
      else none
    | _, _, _, _, _, _ => none
  | _ => none

/-- Python's `str.replace('Z', '')`: remove every occurrence of `Z`. -/
def removeZ : List Char → List Char
  | [] => []
  | c :: cs => if c = 'Z' then removeZ cs else c :: removeZ cs

/-- Timestamp normalization inside `update_timeline` (src/Samsung/main.py
lines 712-717): a numeric value strictly above `1000000000000` is treated as
milliseconds and divided by 1000, any other numeric value passes through as
seconds (`datetime.fromtimestamp` is modelled as the identity on epoch
seconds, ignoring its platform range limits), and a non-numeric value is
stringified, has every `Z` removed (Python's `replace('Z', '')` removes all
occurrences) and is parsed as ISO-8601; `none` is the parse failure that
drops the record. -/
def normalizeTimestamp : Value → Option ℚ
  | .vInt n => some (if 1000000000000 < n then (n : ℚ) / 1000 else (n : ℚ))
  | .vFloat q => some (if 1000000000000 < q then q / 1000 else q)
  | v => parseIsoChars (removeZ (pyStr v).data)

/-- A timeline event tuple `(dt, event_desc, db_name)`. -/
abbrev TimelineEvent := ℚ × String × String

/-- The timestamp-field priority chain and description building of
`update_timeline` (lines 693-707): `date` (with call/message descriptions),
then `dtstart`, then `lastmod`, then `start_time`; a record with none of
these fields yields nothing. -/
def recordTimestampDesc (dtype : String) (r : SRow) : Option (Value × String) :=
  if hasKey r ("date") then
    some (getVal r ("date"),
      if dtype = "calls" then
        "Call: " ++ pyStr (getValD r ("call_type") (.vStr "Unknown"))
          ++ " - " ++ pyStr (getValD r ("number") (.vStr "Unknown"))
      else if dtype = "messages" then
        "SMS: " ++ pyStr (getValD r ("message_type") (.vStr "Unknown"))
          ++ " - " ++ pyStr (getValD r ("address") (.vStr "Unknown"))
      else "")
  else if hasKey r ("dtstart") then
    some (getVal r ("dtstart"),
      "Calendar: " ++ pyStr (getValD r ("title") (.vStr "No title")))
  else if hasKey r ("lastmod") then
    some (getVal r ("lastmod"),
      "Download: " ++ pyStr (getValD r ("title") (.vStr "Unknown file")))
  else if hasKey r ("start_time") then
    some (getVal r ("start_time"),
      "Download: " ++ pyStr (getValD r ("target_path") (getValD r ("url") (.vStr "Unknown file")))
        ++ " (" ++ pyStr (getValD r ("download_status") (.vStr "Unknown")) ++ ")")
  else none

/-- The per-record timeline contribution (lines 688-721): extract the
priority timestamp field, skip the record if the value is falsy, normalize,
and skip the record on parse failure. -/
def eventOfRecord (dtype name : String) (r : SRow) : Option TimelineEvent :=
  match recordTimestampDesc dtype r with
  | none => none
  | some (ts, desc) =>
    if truthy ts then
      match normalizeTimestamp ts with
      | some q => some (q, desc, name)
      | none => none
    else none

/-- One loaded dataset as stored in `self.loaded_databases`:
`{'data': ..., 'type': ..., 'count': ...}`. -/
structure DatasetInfo where
  data : List SRow
  type : String
  count : ℕ

/-- The timeline events one dataset contributes: only the first 100 records
are scanned (`data[:100]`). -/
def datasetEvents (name : String) (info : DatasetInfo) : List TimelineEvent :=
  (info.data.take 100).filterMap (eventOfRecord info.type name)

/-- All events collected across the store, in store and record order. -/
def collectTimelineEvents (store : List (String × DatasetInfo)) : List TimelineEvent :=
  store.flatMap (fun p => datasetEvents p.1 p.2)

/-- Stable insertion into a descending run: the new element goes in front of
the first element whose timestamp is not larger, i.e. strictly after every
earlier-inserted element with the same timestamp. -/
def insertEventDesc (x : TimelineEvent) : List TimelineEvent → List TimelineEvent
  | [] => [x]
  | y :: ys => if y.1 ≤ x.1 then x :: y :: ys else y :: insertEventDesc x ys

/-- Models `timeline_events.sort(key=lambda x: x[0], reverse=True)`: the
unique descending-by-timestamp stable sort (CPython's sort is stable and
`reverse=True` preserves the order of equal keys). -/
def sortEventsDesc : List TimelineEvent → List TimelineEvent
  | [] => []
  | x :: xs => insertEventDesc x (sortEventsDesc xs)

/-- `ForensicApp.update_timeline` (lines 678-735), reduced to the computed
event sequence: collect per-dataset events, sort by timestamp descending
(stably), and show only the first 200. -/
def ForensicApp.update_timeline (store : List (String × DatasetInfo)) : List TimelineEvent :=
  (sortEventsDesc (collectTimelineEvents store)).take 200

/-- One exported database entry of the interchange file. -/
structure ExportedDB where
  record_count : ℕ
  data_type : String
  records : List SRow

/-- The interchange file of `export_data`. -/
structure ExportFile where
  export_date : String
  device_info : String
  databases : List (String × ExportedDB)

/-- `ForensicApp.export_data` (lines 751-765): every loaded dataset is
exported, its records truncated to the first 500 (`info['data'][:500]`)
while `record_count` copies the stored count unchanged. -/
def ForensicApp.export_data (now : String) (store : List (String × DatasetInfo)) : ExportFile :=
  ⟨now, "Samsung Galaxy S22",
    store.map (fun p => (p.1, ⟨p.2.count, p.2.type, p.2.data.take 500⟩))⟩

/-- Observable outcome of one load worker: whether `disconnect()` ran,
whether an opened connection is still open when the worker ends, the status
message of the except-branch, and the dataset handed to the UI thread. -/
structure LoadOutcome where
  disconnectCalled : Bool
  connectionOpen : Bool
  errorStatus : Option String
  delivered : Option (List SRow)
deriving DecidableEq

/-- `ForensicApp._load_database_thread` (src/Samsung/main.py lines 542-596),
with the category dispatch abstracted into one resolution step that either
returns data or raises: inside the `try`, connect; when connected, resolve
and hand the result to the UI; then call `disconnect()` — but the
`disconnect()` call sits inside the `try` body, not in a `finally`, so when
resolution raises, control jumps to the `except` handler, which only sets
the status message; the connection opened by `connect()` is then never
closed. When `connect()` fails nothing was opened and `disconnect()` is a
no-op. -/
def ForensicApp.load_database_thread (dbName : String) (connectOk : Bool)
    (resolution : Except String (List SRow)) : LoadOutcome :=
  if connectOk then
    match resolution with
    | .ok data => ⟨true, false, none, some data⟩
    | .error e => ⟨false, true, some ("Error loading " ++ dbName ++ ": " ++ e), none⟩
  else ⟨true, false, none, none⟩

/-- Claim-side comparison definition, following the spec sentence word for
word: strip one trailing `Z` marker (and nothing else) before ISO parsing. -/
def specStripTrailingZ (cs : List Char) : List Char :=
  if cs.getLast? = some 'Z' then cs.dropLast else cs

/-- Concrete database for the C1 witness: the preferred contacts join hits a
missing table, the first fallback succeeds with one row. -/
def dbContactsW : DBHandle :=
  ⟨[], fun c =>
    match c with
    | .contactsMain => .err ("no such table: raw_contacts")
    | .contactsAltMimetype => .ok [[("contact_id", .rInt 1)]]
    | _ => .ok []⟩

/-- Concrete database for the C5 counterexample: the store hands the calls
query 1001 rows. -/
def dbCalls1001 : DBHandle :=
  ⟨[], fun c =>
    match c with
    | .callsQuery => .ok (List.replicate 1001 [("date", .rInt 1)])
    | _ => .ok []⟩

/-- Concrete database for C6: a token-matching table whose only column is
`page_url` — a name that contains `url` but is not equal to `url`. -/
def dbPageUrl : DBHandle :=
  ⟨["visits"], fun c =>
    match c with
    | .selectAllLimit50 "visits" => .ok [[("page_url", .rInt 1)]]
    | _ => .err ("no such table")⟩

/-- Concrete store for the C9 witness: one dataset of 600 records. -/
def store600 : List (String × DatasetInfo) :=
  [("Messages", ⟨List.replicate 600 [], "messages", 600⟩)]

end Androsiq

namespace Androsiq

theorem length_hexChars (bs : List ℕ) : (hexChars bs).length = 2 * bs.length := by
  induction bs with
  | nil => rfl
  | cons b bs ih => simp [hexChars, ih]; ring

/-- C2: for a bytes cell that does not decode as UTF-8, sanitization yields
the exact-length binary marker when the byte length exceeds 100, and
otherwise a hex marker holding exactly `min 50 (2*len)` hex digits with an
ellipsis iff the full hex length `2*len` exceeds 50. -/
theorem sanitize_undecodable_bytes (bs : List ℕ) (hdec : utf8Decode bs = none) :
    (bs.length ≤ 100 →
      sanitizeValue (.rBytes bs) =
        .vStr ("<Hex: " ++ String.mk ((hexChars bs).take 50)
          ++ (if (hexChars bs).length > 50 then "..." else "") ++ ">")
      ∧ ((hexChars bs).take 50).length = min 50 (2 * bs.length)
      ∧ ((hexChars bs).length > 50 ↔ 2 * bs.length > 50))
    ∧ (bs.length > 100 →
      sanitizeValue (.rBytes bs) =
        .vStr ("<Binary data: " ++ toString bs.length ++ " bytes>")) := by
  constructor
  · intro hle
    refine ⟨?_, ?_, ?_⟩
    · simp only [sanitizeValue, hdec]
      rw [if_neg (by omega)]
    · rw [List.length_take, length_hexChars]
    · rw [length_hexChars]
  · intro hgt
    simp only [sanitizeValue, hdec]
    rw [if_pos hgt]

/-- Witness for C2: concrete undecodable byte strings on both sides of the
100-byte boundary, with the hypotheses discharged by evaluation. -/
theorem sanitize_undecodable_bytes_witness :
    (sanitizeValue (.rBytes [255]) = .vStr ("<Hex: ff>")
      ∧ ((hexChars [255]).take 50).length = min 50 (2 * 1))
    ∧ sanitizeValue (.rBytes (List.replicate 101 255)) =
        .vStr ("<Binary data: 101 bytes>") := by
  have h1 := sanitize_undecodable_bytes [255] (by decide)
  have h2 := sanitize_undecodable_bytes (List.replicate 101 255) (by decide)
  refine ⟨⟨?_, ?_⟩, ?_⟩
  · have := (h1.1 (by decide)).1
    simpa using this
  · exact (h1.1 (by decide)).2.1
  · have := h2.2 (by simp)
    simpa using this

/-- C1: the adaptive resolution protocol of the categories with ordered
candidate lists (contacts, browsing history, accounts): the store outcome of
each candidate is sanitized row by row, a store error is caught inside
`query` and yields no rows (so it is treated as not accepted and never
propagates), candidates run in order, the first candidate returning at least
one row has its sanitized rows returned with the remaining candidates unable
to affect the result, and when every candidate yields no rows the result is
the empty list. -/
theorem adaptive_fallback_protocol (db : DBHandle) :
    (∀ c rows, db.run c = .ok rows → ForensicDatabase.query db c = rows.map sanitizeRow)
    ∧ (∀ c msg, db.run c = .err msg → ForensicDatabase.query db c = [])
    ∧ runCandidateList db [] = []
    ∧ (∀ f fs, f db = [] → runCandidateList db (f :: fs) = runCandidateList db fs)
    ∧ (∀ f fs, f db ≠ [] → runCandidateList db (f :: fs) = f db)
    ∧ (∀ fs, (∀ f ∈ fs, f db = []) → runCandidateList db fs = [])
    ∧ ContactsAnalyzer.get_contacts db = runCandidateList db contactsCandidates
    ∧ AccountsAnalyzer.get_accounts db = runCandidateList db accountsCandidates
    ∧ BrowserAnalyzer.get_browsing_history db = runCandidateList db browserCandidates := by
  refine ⟨?_, ?_, rfl, ?_, ?_, ?_, rfl, rfl, rfl⟩
  · intro c rows h
    simp [ForensicDatabase.query, h]
  · intro c msg h
    simp [ForensicDatabase.query, h]
  · intro f fs h
    simp [runCandidateList, h]
  · intro f fs h
    simp [runCandidateList, h]
  · intro fs h
    induction fs with
    | nil => rfl
    | cons f fs ih =>
      have hf : f db = [] := h f (by simp)
      simp only [runCandidateList, hf, if_pos rfl]
      exact ih (fun g hg => h g (by simp [hg]))

/-- Witness for C1: on `dbContactsW` the protocol skips the erroring main
query and returns the first fallback's sanitized row. -/
theorem adaptive_fallback_protocol_witness :
    ContactsAnalyzer.get_contacts dbContactsW = [[("contact_id", Value.vInt 1)]] := by
  have h := adaptive_fallback_protocol dbContactsW
  rw [h.2.2.2.2.2.2.1]
  unfold contactsCandidates
  rw [h.2.2.2.1 _ _ (by decide)]
  rw [h.2.2.2.2.1 _ _ (by decide)]
  decide

/-- Counterexample to C5: the calls candidate has no `LIMIT` clause and
returns 1001 rows on a concrete store, and the browsing last-resort scan is
capped at 50, below 100. -/
theorem calls_query_uncapped :
    Candidate.limit .callsQuery = none
    ∧ Candidate.limit (.selectAllLimit50 ("history")) = some 50
    ∧ (CallLogAnalyzer.get_call_history dbCalls1001).length = 1001 := by
  refine ⟨rfl, rfl, ?_⟩
  have hrun : dbCalls1001.run .callsQuery =
      .ok (List.replicate 1001 [(("date" : String), RawValue.rInt 1)]) := rfl
  simp only [CallLogAnalyzer.get_call_history, ForensicDatabase.query, hrun,
    List.length_map, List.length_replicate]

/-- C5 as amended: every candidate that does carry a `LIMIT` clause is
capped between 50 and 1000, but the calls query, main contacts join,
downloads query, meta query and main accounts query carry no cap at all, and
the browsing last-resort scan is capped at 50 (below 100). -/
theorem candidate_row_caps (t : String) :
    (∀ c : Candidate, ∀ n, c.limit = some n → 50 ≤ n ∧ n ≤ 1000)
    ∧ Candidate.limit .callsQuery = none
    ∧ Candidate.limit .contactsMain = none
    ∧ Candidate.limit .downloadsQuery = none
    ∧ Candidate.limit .metaQuery = none
    ∧ Candidate.limit .accountsMain = none
    ∧ Candidate.limit (.selectAllLimit50 t) = some 50 := by
  refine ⟨?_, rfl, rfl, rfl, rfl, rfl, rfl⟩
  intro c n h
  cases c <;> simp [Candidate.limit] at h <;> omega

/-- Witness for the amended C5: the messages cap evaluates inside the stated
bounds. -/
theorem candidate_row_caps_witness : 50 ≤ 1000 ∧ 1000 ≤ 1000 :=
  (candidate_row_caps ("x")).1 .messagesQuery 1000 rfl

/-- Counterexample to C6: the last-resort scan accepts (and
`get_browsing_history` returns) a table whose first row has no column named
`url` — the code tests substring containment, not name equality. -/
theorem url_scan_accepts_substring :
    BrowserAnalyzer.get_browsing_history dbPageUrl = [[("page_url", Value.vInt 1)]]
    ∧ lowerStr ("page_url") ≠ ("url") := by
  exact ⟨by decide, by decide⟩

/-- C6 as amended: in the browsing last resort, after the table-name token
filter, a table's result is accepted iff it is non-empty and some column
name of its first row contains `url` as a case-insensitive substring; the
first accepted table's rows are returned, and tables failing either test are
skipped. -/
theorem url_scan_characterization (db : DBHandle) :
    scanTablesForUrl db [] = []
    ∧ (∀ t ts, tableTokenMatch t = false →
        scanTablesForUrl db (t :: ts) = scanTablesForUrl db ts)
    ∧ (∀ t ts, acceptUrlResult (ForensicDatabase.query db (.selectAllLimit50 t)) = false →
        scanTablesForUrl db (t :: ts) = scanTablesForUrl db ts)
    ∧ (∀ t ts, tableTokenMatch t = true →
        acceptUrlResult (ForensicDatabase.query db (.selectAllLimit50 t)) = true →
        scanTablesForUrl db (t :: ts) = ForensicDatabase.query db (.selectAllLimit50 t))
    ∧ (∀ rs : List SRow, acceptUrlResult rs = true ↔
        ∃ r rest, rs = r :: rest ∧
          ∃ kv ∈ r, containsSub ("url").data (lowerStr kv.1).data = true)
    ∧ lastResortScan db = scanTablesForUrl db db.tables := by
  refine ⟨rfl, ?_, ?_, ?_, ?_, rfl⟩
  · intro t ts h
    simp [scanTablesForUrl, h]
  · intro t ts h
    simp [scanTablesForUrl, h]
  · intro t ts h1 h2
    simp [scanTablesForUrl, h1, h2]
  · intro rs
    cases rs with
    | nil => simp [acceptUrlResult]
    | cons r rest =>
      simp only [acceptUrlResult, List.any_eq_true]
      constructor
      · rintro ⟨kv, hkv, hc⟩
        exact ⟨r, rest, rfl, kv, hkv, hc⟩
      · rintro ⟨r2, rest2, heq, kv, hkv, hc⟩
        cases heq
        exact ⟨kv, hkv, hc⟩

/-- Witness for the amended C6: on `dbPageUrl`, the scan of the single
token-matching table accepts and returns its sanitized row. -/
theorem url_scan_characterization_witness :
    scanTablesForUrl dbPageUrl ["visits"] =
      ForensicDatabase.query dbPageUrl (.selectAllLimit50 ("visits")) :=
  (url_scan_characterization dbPageUrl).2.2.2.1 ("visits") [] (by decide) (by decide)

theorem mem_insertEventDesc {x a : TimelineEvent} {l : List TimelineEvent} :
    a ∈ insertEventDesc x l ↔ a = x ∨ a ∈ l := by
  induction l with
  | nil => simp [insertEventDesc]
  | cons y ys ih =>
    simp only [insertEventDesc]
    split
    · simp [List.mem_cons]
    · simp only [List.mem_cons, ih]
      tauto

theorem pairwise_insertEventDesc {x : TimelineEvent} {l : List TimelineEvent}
    (h : l.Pairwise (fun a b => b.1 ≤ a.1)) :
    (insertEventDesc x l).Pairwise (fun a b => b.1 ≤ a.1) := by
  induction l with
  | nil => simp [insertEventDesc]
  | cons y ys ih =>
    rcases List.pairwise_cons.mp h with ⟨hy, hys⟩
    simp only [insertEventDesc]
    split
    · rename_i hle
      refine List.pairwise_cons.mpr ⟨?_, h⟩
      intro b hb
      rcases List.mem_cons.mp hb with rfl | hb
      · exact hle
      · exact le_trans (hy b hb) hle
    · rename_i hle
      push_neg at hle
      refine List.pairwise_cons.mpr ⟨?_, ih hys⟩
      intro b hb
      rcases mem_insertEventDesc.mp hb with rfl | hb
      · exact le_of_lt hle
      · exact hy b hb

theorem pairwise_sortEventsDesc (l : List TimelineEvent) :
    (sortEventsDesc l).Pairwise (fun a b => b.1 ≤ a.1) := by
  induction l with
  | nil => simp [sortEventsDesc]
  | cons x xs ih => exact pairwise_insertEventDesc ih

theorem filter_insertEventDesc (t : ℚ) (x : TimelineEvent) (l : List TimelineEvent) :
    (insertEventDesc x l).filter (fun e => decide (e.1 = t)) =
      (x :: l).filter (fun e => decide (e.1 = t)) := by
  induction l with
  | nil => rfl
  | cons y ys ih =>
    simp only [insertEventDesc]
    split
    · rfl
    · rename_i hlt
      by_cases hx : x.1 = t
      · by_cases hy : y.1 = t
        · exact absurd (le_of_eq (hy.trans hx.symm)) hlt
        · simp [List.filter_cons, hx, hy, ih]
      · by_cases hy : y.1 = t
        · simp [List.filter_cons, hx, hy, ih]
        · simp [List.filter_cons, hx, hy, ih]

theorem filter_sortEventsDesc (t : ℚ) (l : List TimelineEvent) :
    (sortEventsDesc l).filter (fun e => decide (e.1 = t)) =
      l.filter (fun e => decide (e.1 = t)) := by
  induction l with
  | nil => rfl
  | cons x xs ih =>
    simp only [sortEventsDesc, filter_insertEventDesc, List.filter_cons, ih]

/-- C8: the displayed timeline is the stable descending-by-timestamp sort of
the collected events, truncated to 200: it is pairwise sorted with larger
timestamps first, and for every timestamp value the events carrying it
appear in the sorted sequence exactly in their input order (stability). -/
theorem timeline_sorted_stable (store : List (String × DatasetInfo)) (t : ℚ) :
    ForensicApp.update_timeline store =
      (sortEventsDesc (collectTimelineEvents store)).take 200
    ∧ (ForensicApp.update_timeline store).Pairwise (fun a b => b.1 ≤ a.1)
    ∧ (sortEventsDesc (collectTimelineEvents store)).filter (fun e => decide (e.1 = t)) =
        (collectTimelineEvents store).filter (fun e => decide (e.1 = t)) := by
  refine ⟨rfl, ?_, filter_sortEventsDesc t _⟩
  exact (pairwise_sortEventsDesc _).sublist (List.take_sublist _ _)

/-- C7: the displayed timeline never exceeds 200 events, each dataset's
contribution comes from scanning only its first 100 records (so it never
exceeds 100 events). -/
theorem timeline_bounds (store : List (String × DatasetInfo)) :
    (ForensicApp.update_timeline store).length ≤ 200
    ∧ (∀ p ∈ store, (datasetEvents p.1 p.2).length ≤ 100)
    ∧ (∀ p ∈ store,
        datasetEvents p.1 ⟨p.2.data.take 100, p.2.type, p.2.count⟩ = datasetEvents p.1 p.2) := by
  refine ⟨?_, ?_, ?_⟩
  · exact le_trans (le_of_eq rfl) (List.length_take_le 200 _)
  · intro p hp
    exact le_trans (List.length_filterMap_le _ _) (List.length_take_le _ _)
  · intro p hp
    simp [datasetEvents, List.take_take]

/-- Witness for C7: a concrete one-dataset store satisfies the per-dataset
bound. -/
theorem timeline_bounds_witness :
    (datasetEvents ("Call Log")
      (⟨[[(("date" : String), Value.vInt 5)]], "calls", 1⟩ : DatasetInfo)).length ≤ 100 :=
  (timeline_bounds [(("Call Log" : String),
      (⟨[[(("date" : String), Value.vInt 5)]], "calls", 1⟩ : DatasetInfo))]).2.1
    (("Call Log" : String), (⟨[[(("date" : String), Value.vInt 5)]], "calls", 1⟩ : DatasetInfo))
    (List.mem_singleton.mpr rfl)

/-- C3 as amended: a numeric raw timestamp strictly above `10^12` is divided
by 1000, any other numeric passes through as seconds, and a non-numeric
value is parsed as ISO-8601 after removing every occurrence of `Z` (the code
uses `replace('Z', '')`, which strips all `Z`s, not only a trailing one);
the raw values 1700000000 and 1700000000000 normalize to the same instant. -/
theorem timestamp_normalization (n : ℤ) (q : ℚ) (s : String) :
    (1000000000000 < n → normalizeTimestamp (.vInt n) = some ((n : ℚ) / 1000))
    ∧ (n ≤ 1000000000000 → normalizeTimestamp (.vInt n) = some (n : ℚ))
    ∧ (1000000000000 < q → normalizeTimestamp (.vFloat q) = some (q / 1000))
    ∧ (q ≤ 1000000000000 → normalizeTimestamp (.vFloat q) = some q)
    ∧ normalizeTimestamp (.vStr s) = parseIsoChars (removeZ s.data)
    ∧ normalizeTimestamp (.vInt 1700000000) = some 1700000000
    ∧ normalizeTimestamp (.vInt 1700000000000) = some 1700000000 := by
  refine ⟨?_, ?_, ?_, ?_, rfl, ?_, ?_⟩
  · intro h; simp [normalizeTimestamp, h]
  · intro h; simp [normalizeTimestamp, not_lt.mpr h]
  · intro h; simp [normalizeTimestamp, h]
  · intro h; simp [normalizeTimestamp, not_lt.mpr h]
  · norm_num [normalizeTimestamp]
  · norm_num [normalizeTimestamp]

/-- Witness for the amended C3: a concrete millisecond value above the
threshold is divided by 1000. -/
theorem timestamp_normalization_witness :
    normalizeTimestamp (.vInt 2000000000000) = some ((2000000000000 : ℚ) / 1000) :=
  (timestamp_normalization 2000000000000 0 ("")).1 (by norm_num)

/-- Counterexample to C3: the code removes every `Z`, not only a trailing
one — on the raw value `"Z2023-01-01"` the code produces the instant
2023-01-01 (epoch 1672531200), while parsing after stripping only a trailing
`Z` fails and would drop the record. -/
theorem timestamp_z_strip_counterexample :
    normalizeTimestamp (.vStr "Z2023-01-01") = some 1672531200
    ∧ parseIsoChars (specStripTrailingZ ("Z2023-01-01").data) = none := by
  constructor
  · have h1 : normalizeTimestamp (.vStr "Z2023-01-01") = some (toEpoch 2023 1 1 0 0 0) := rfl
    have hd : daysFromCivil 2023 1 1 = 19358 := by decide
    rw [h1]
    norm_num [toEpoch, hd]
  · decide

/-- Counterexample to C10: an event timestamped exactly at the Unix epoch
does appear in the timeline when the raw timestamp is the truthy ISO string
`"1970-01-01"`. -/
theorem epoch_event_appears :
    ForensicApp.update_timeline
        [("Calendar", ⟨[[("dtstart", Value.vStr "1970-01-01")]], "calendar", 1⟩)] =
      [(0, "Calendar: No title", "Calendar")] := by
  have h1 : ForensicApp.update_timeline
      [("Calendar", ⟨[[("dtstart", Value.vStr "1970-01-01")]], "calendar", 1⟩)] =
      [(toEpoch 1970 1 1 0 0 0, "Calendar: No title", "Calendar")] := rfl
  have hd : daysFromCivil 1970 1 1 = 0 := by decide
  rw [h1]
  norm_num [toEpoch, hd]

/-- C10 as amended: a record whose highest-priority present timestamp field
holds a falsy value (`None`, `0`, `0.0`, or the empty string) produces no
timeline event even though the field exists and no parse failure occurs;
consequently a record yielding an event at epoch 0 cannot carry a numeric
raw timestamp — only an ISO string can reach the epoch instant. -/
theorem falsy_timestamp_drops (dtype name : String) (r : SRow) :
    (∀ v, truthy v = false ↔ v = .vNull ∨ v = .vInt 0 ∨ v = .vFloat 0 ∨ v = .vStr "")
    ∧ (∀ ts desc, recordTimestampDesc dtype r = some (ts, desc) → truthy ts = false →
        eventOfRecord dtype name r = none)
    ∧ (hasKey r ("date") = true → truthy (getVal r ("date")) = false →
        eventOfRecord dtype name r = none)
    ∧ (∀ ts desc e, recordTimestampDesc dtype r = some (ts, desc) →
        eventOfRecord dtype name r = some e → e.1 = 0 → ∃ s, ts = .vStr s) := by
  refine ⟨?_, ?_, ?_, ?_⟩
  · intro v
    cases v <;> simp [truthy]
  · intro ts desc h hts
    simp [eventOfRecord, h, hts]
  · intro hk hts
    simp [eventOfRecord, recordTimestampDesc, hk, hts]
  · intro ts desc e h he h0
    rw [eventOfRecord] at he
    rw [h] at he
    cases ts with
    | vNull => simp [truthy] at he
    | vStr s => exact ⟨s, rfl⟩
    | vInt m =>
      by_cases hm : m = 0
      · simp [truthy, hm] at he
      · simp only [truthy, normalizeTimestamp, hm, ne_eq, not_false_iff, decide_True,
          if_true, Option.some.injEq] at he
        have hfst : (if (1000000000000 : ℤ) < m then (m : ℚ) / 1000 else (m : ℚ)) = 0 := by
          rw [← he] at h0
          simpa using h0
        rcases lt_or_le 1000000000000 m with hgt | hle
        · rw [if_pos hgt] at hfst
          rcases div_eq_zero_iff.mp hfst with h' | h'
          · exact absurd (by exact_mod_cast h') hm
          · norm_num at h'
        · rw [if_neg (not_lt.mpr hle)] at hfst
          exact absurd (by exact_mod_cast hfst) hm
    | vFloat x =>
      by_cases hx : x = 0
      · simp [truthy, hx] at he
      · simp only [truthy, normalizeTimestamp, hx, ne_eq, not_false_iff, decide_True,
          if_true, Option.some.injEq] at he
        have hfst : (if (1000000000000 : ℚ) < x then x / 1000 else x) = 0 := by
          rw [← he] at h0
          simpa using h0
        rcases lt_or_le 1000000000000 x with hgt | hle
        · rw [if_pos hgt] at hfst
          rcases div_eq_zero_iff.mp hfst with h' | h'
          · exact absurd h' hx
          · norm_num at h'
        · rw [if_neg (not_lt.mpr hle)] at hfst
          exact absurd hfst hx

/-- Witness for the amended C10: a call record whose `date` field holds the
falsy value 0 produces no timeline event. -/
theorem falsy_timestamp_drops_witness :
    eventOfRecord ("calls") ("Call Log") [(("date" : String), Value.vInt 0)] = none :=
  (falsy_timestamp_drops ("calls") ("Call Log") [(("date" : String), Value.vInt 0)]).2.2.1
    (by decide) (by decide)

/-- Counterexample to C4: when resolution raises, the worker reports the
status message but `disconnect()` never runs (it sits inside the `try`, not
in a `finally`), so the opened connection stays open. -/
theorem load_thread_leaks_on_error :
    (ForensicApp.load_database_thread ("Contacts") true (.error ("boom"))).connectionOpen = true
    ∧ (ForensicApp.load_database_thread ("Contacts") true (.error ("boom"))).disconnectCalled = false
    ∧ (ForensicApp.load_database_thread ("Contacts") true (.error ("boom"))).errorStatus =
        some ("Error loading Contacts: boom") :=
  ⟨rfl, rfl, rfl⟩

/-- C4 as amended: the connection is released on the success and no-match
paths, and a failed `connect()` leaves nothing open; but when an unexpected
exception is raised during resolution, the failure is reported as a status
message while `disconnect()` is skipped and the connection stays open. -/
theorem load_thread_cleanup (dbName : String) (res : Except String (List SRow))
    (data : List SRow) (e : String) :
    ForensicApp.load_database_thread dbName true (.ok data) =
      ⟨true, false, none, some data⟩
    ∧ ForensicApp.load_database_thread dbName true (.error e) =
        ⟨false, true, some ("Error loading " ++ dbName ++ ": " ++ e), none⟩
    ∧ ForensicApp.load_database_thread dbName false res = ⟨true, false, none, none⟩ :=
  ⟨rfl, rfl, rfl⟩

/-- C9: export keeps every dataset (none is rejected), truncates each
record list to the first 500, and copies the stored original count into
`record_count`; a 600-record dataset exports exactly 500 records with
`record_count` 600. -/
theorem export_truncation (now : String) (store : List (String × DatasetInfo)) :
    (ForensicApp.export_data now store).databases =
      store.map (fun p => (p.1, ⟨p.2.count, p.2.type, p.2.data.take 500⟩))
    ∧ (ForensicApp.export_data now store).databases.length = store.length
    ∧ (∀ p ∈ store,
        (p.1, (⟨p.2.count, p.2.type, p.2.data.take 500⟩ : ExportedDB)) ∈
          (ForensicApp.export_data now store).databases
        ∧ (p.2.data.take 500).length = min 500 p.2.data.length
        ∧ (p.2.count = p.2.data.length → p.2.data.length = 600 →
            (p.2.data.take 500).length = 500 ∧ p.2.count = 600)) := by
  refine ⟨rfl, by simp [ForensicApp.export_data], ?_⟩
  intro p hp
  refine ⟨List.mem_map.mpr ⟨p, hp, rfl⟩, List.length_take _ _, ?_⟩
  intro hc h600
  constructor
  · rw [List.length_take, h600]
    omega
  · rw [hc, h600]

/-- Witness for C9: the concrete 600-record store exports exactly 500
records while keeping count 600. -/
theorem export_truncation_witness :
    ((List.replicate 600 ([] : SRow)).take 500).length = 500 ∧ (600 : ℕ) = 600 := by
  have h := (export_truncation ("2026-01-01") store600).2.2
    ("Messages", ⟨List.replicate 600 [], "messages", 600⟩)
    (by unfold store600; exact List.mem_singleton.mpr rfl)
  exact h.2.2 (List.length_replicate 600 _).symm (List.length_replicate 600 _)

end Androsiq
